import Mathlib

/-!
Shallow embedding of the reconciliation engine of `india-air-insights`
(`src/lib/aqi-utils.ts`), together with theorems checking the stated
properties of its freshness classifier, scale normalizer, agreement
analyzer and confidence-weighted aggregator.

Modelling conventions:
* JavaScript numbers are embedded as exact rationals (`ℚ`); all arithmetic
  in the reconciliation engine is on small decimal constants and integer
  AQI values, so exact rationals are a faithful model.
* `Math.round` is `⌊q + 1/2⌋` (JavaScript rounds half-up, also for
  negative arguments).
* `aqi` is `Option ℤ` following the data contract (`aqi: integer in
  [0,500] or null`); AQI values entering the engine are produced by
  `Math.round` or integer caches.
* Timestamps are `Option ℚ` (milliseconds since the epoch); the wall clock
  `now` is an explicit parameter of `calculateFreshness`.
* The source compares `stdDev = Math.sqrt(variance) ≤ c`; since both sides
  are nonnegative this is equivalent to `variance ≤ c²`, which is how the
  executable definition tests it (`Real.sqrt` is not computable). The
  theorems state the `Real.sqrt` form.
-/

namespace AirInsights

/-- Modelled from the type declarations (`types/aqi.ts`):
`'GOVERNMENT' | 'INTERNATIONAL' | 'HISTORICAL' | 'IOT_SENSOR'`. -/
inductive DataSource where
  | GOVERNMENT
  | INTERNATIONAL
  | HISTORICAL
  | IOT_SENSOR
deriving DecidableEq

/-- Modelled from the type declarations: `'fresh' | 'aging' | 'stale' |
'unavailable'`. -/
inductive FreshnessStatus where
  | fresh
  | aging
  | stale
  | unavailable
deriving DecidableEq

/-- Modelled from the type declarations: confidence level
`'high' | 'medium' | 'low' | 'uncalibrated'`. -/
inductive ConfidenceLevel where
  | high
  | medium
  | low
  | uncalibrated
deriving DecidableEq

/-- Modelled from the type declarations: `Pollutant`. -/
structure Pollutant where
  name : String
  value : Option ℚ
  unit : String
deriving DecidableEq

/-- Modelled from the type declarations: `AQIReading`. `aqi` carries the
contract "integer in [0,500] or null"; `notes` is optional free text. -/
structure AQIReading where
  source : DataSource
  aqi : Option ℤ
  pollutants : List Pollutant
  timestamp : Option ℚ
  freshness : FreshnessStatus
  confidence : ConfidenceLevel
  notes : Option String
deriving DecidableEq

instance : Inhabited AQIReading :=
  ⟨⟨DataSource.GOVERNMENT, none, [], none, FreshnessStatus.unavailable,
    ConfidenceLevel.low, none⟩⟩

/-- Modelled from the type declarations: `AgreementAnalysis`. The `level`
is the string union `'high' | 'partial' | 'outlier' | 'insufficient'`,
kept as a `String` as in the source. -/
structure AgreementAnalysis where
  level : String
  spread : Option ℤ
  explanation : String
deriving DecidableEq

/-- Modelled from the type declarations: `DerivedAQI`. -/
structure DerivedAQI where
  value : Option ℤ
  confidence : ℤ
  sources : List DataSource
  methodology : String
deriving DecidableEq

/-- JavaScript `Math.round`: round half-up. -/
def jsRound (q : ℚ) : ℤ := ⌊q + 1 / 2⌋

/-- The rendering of a `DataSource` in a template string (TypeScript string
union values print as themselves). -/
def sourceName : DataSource → String
  | DataSource.GOVERNMENT => "GOVERNMENT"
  | DataSource.INTERNATIONAL => "INTERNATIONAL"
  | DataSource.HISTORICAL => "HISTORICAL"
  | DataSource.IOT_SENSOR => "IOT_SENSOR"

/-- `calculateFreshness` from `aqi-utils.ts`. The wall clock is passed
explicitly; `now` and the timestamp are in milliseconds, and
`hoursDiff = (now - dataTime) / (1000*60*60)` as in the source. -/
def calculateFreshness (now : ℚ) (timestamp : Option ℚ) : FreshnessStatus :=
  match timestamp with
  | none => FreshnessStatus.unavailable
  | some dataTime =>
    let hoursDiff := (now - dataTime) / (1000 * 60 * 60)
    if hoursDiff < 1 then FreshnessStatus.fresh
    else if hoursDiff < 6 then FreshnessStatus.aging
    else FreshnessStatus.stale

/-- `normalizeAQI` from `aqi-utils.ts`: INTERNATIONAL values are scaled by
0.95 and rounded; all other sources are returned unchanged. -/
def normalizeAQI (value : ℚ) (sourceType : DataSource) : ℚ :=
  match sourceType with
  | DataSource.INTERNATIONAL => (jsRound (value * 0.95) : ℚ)
  | DataSource.GOVERNMENT => value
  | DataSource.HISTORICAL => value
  | DataSource.IOT_SENSOR => value

/-- The filter `r.aqi !== null && r.freshness !== 'unavailable'` shared by
`analyzeAgreement` and `calculateDerivedAQI` (both repeat this line). -/
def usableReadings (readings : List AQIReading) : List AQIReading :=
  readings.filter fun r =>
    r.aqi.isSome && decide (r.freshness ≠ FreshnessStatus.unavailable)

/-- `validReadings.map(r => r.aqi as number)`: the non-null cast is modelled
by `Option.getD 0`; on usable readings `aqi` is always `some`. -/
def aqiValuesOf (l : List AQIReading) : List ℤ :=
  l.map fun r => r.aqi.getD 0

/-- `Math.max(...values)`; only applied to nonempty lists in the source
(the `0` for `[]` is an unused sentinel). -/
def listMax : List ℤ → ℤ
  | [] => 0
  | x :: xs => xs.foldl max x

/-- `Math.min(...values)`; only applied to nonempty lists in the source. -/
def listMin : List ℤ → ℤ
  | [] => 0
  | x :: xs => xs.foldl min x

/-- Explanation string of the `high` branch of `analyzeAgreement`. -/
def highMsg (spread : ℤ) : String :=
  "Sources agree within " ++ toString spread ++
    " AQI points. High confidence in data."

/-- Explanation string of the `partial` branch of `analyzeAgreement`. -/
def partialMsg (spread : ℤ) : String :=
  "Sources differ by " ++ toString spread ++
    " AQI points. Possible local variations or measurement timing differences."

/-- Explanation string of the `outlier` branch of `analyzeAgreement`. -/
def outlierMsg (spread : ℤ) : String :=
  "Significant disagreement (spread: " ++ toString spread ++
    "). Possible sensor calibration issues, local hotspots, or data staleness."

/-- The branch of `analyzeAgreement` reached with at least two usable
readings: spread, population mean/variance (as `reduce` folds in the
source), and the three-way classification. The source computes
`stdDev = Math.sqrt(variance)` and tests `stdDev <= 10` resp.
`stdDev <= 25`; both sides being nonnegative, this is tested here as
`variance ≤ 10 ^ 2` resp. `variance ≤ 25 ^ 2`. -/
def agreementFromValid (validReadings : List AQIReading) : AgreementAnalysis :=
  let aqiValues := aqiValuesOf validReadings
  let mx := listMax aqiValues
  let mn := listMin aqiValues
  let spread := mx - mn
  let mean :=
    aqiValues.foldl (fun (a : ℚ) (b : ℤ) => a + (b : ℚ)) 0 /
      (aqiValues.length : ℚ)
  let variance :=
    aqiValues.foldl (fun (sum : ℚ) (val : ℤ) => sum + ((val : ℚ) - mean) ^ 2) 0 /
      (aqiValues.length : ℚ)
  if spread ≤ 20 ∧ variance ≤ 10 ^ 2 then
    ⟨"high", some spread, highMsg spread⟩
  else if spread ≤ 50 ∧ variance ≤ 25 ^ 2 then
    ⟨"partial", some spread, partialMsg spread⟩
  else
    ⟨"outlier", some spread, outlierMsg spread⟩

/-- `analyzeAgreement` from `aqi-utils.ts`. -/
def analyzeAgreement (readings : List AQIReading) : AgreementAnalysis :=
  let validReadings := usableReadings readings
  if validReadings.length = 0 then
    ⟨"insufficient", none, "No valid data available from any source."⟩
  else if validReadings.length = 1 then
    ⟨"insufficient", none,
      "Only " ++ sourceName (validReadings.headD default).source ++
        " data available. Cannot cross-validate."⟩
  else
    agreementFromValid validReadings

/-- The per-reading weight of `calculateDerivedAQI`: `weight = 1`, then
three `switch` blocks each multiplying in a factor. The freshness switch
has no `'unavailable'` case (such readings are filtered out before), so
the weight is left unchanged there (factor 1). -/
def readingWeight (r : AQIReading) : ℚ :=
  let weight : ℚ := 1
  let weight := weight *
    (match r.source with
     | DataSource.GOVERNMENT => 1.2
     | DataSource.INTERNATIONAL => 1.0
     | DataSource.HISTORICAL => 0.6
     | DataSource.IOT_SENSOR => 0.3)
  let weight := weight *
    (match r.freshness with
     | FreshnessStatus.fresh => 1.0
     | FreshnessStatus.aging => 0.7
     | FreshnessStatus.stale => 0.4
     | FreshnessStatus.unavailable => 1)
  let weight := weight *
    (match r.confidence with
     | ConfidenceLevel.high => 1.0
     | ConfidenceLevel.medium => 0.8
     | ConfidenceLevel.low => 0.5
     | ConfidenceLevel.uncalibrated => 0.3)
  weight

/-- `weight.toFixed(2)` for the nonnegative weights appearing in the
methodology string: two decimal places, half rounded up. -/
def toFixed2 (q : ℚ) : String :=
  let c := jsRound (q * 100)
  toString (c / 100) ++ "." ++
    (if c % 100 < 10 then "0" ++ toString (c % 100) else toString (c % 100))

/-- `calculateDerivedAQI` from `aqi-utils.ts`. -/
def calculateDerivedAQI (readings : List AQIReading) : DerivedAQI :=
  let validReadings := usableReadings readings
  if validReadings.length = 0 then
    ⟨none, 0, [], "No valid data available."⟩
  else
    let totalWeight :=
      validReadings.foldl (fun sum r => sum + readingWeight r) 0
    let weightedSum :=
      validReadings.foldl
        (fun sum r => sum + (r.aqi.getD 0 : ℚ) * readingWeight r) 0
    let derivedValue := jsRound (weightedSum / totalWeight)
    let maxPossibleWeight : ℚ := (validReadings.length : ℚ) * 1.2 * 1.0 * 1.0
    let confidence := min 100 (jsRound (totalWeight / maxPossibleWeight * 100))
    let sourceList := validReadings.map fun r => r.source
    let weightExplanations :=
      String.intercalate ", "
        (validReadings.map fun r =>
          sourceName r.source ++ ": " ++ toFixed2 (readingWeight r))
    ⟨some derivedValue, confidence, sourceList,
      "Weighted average using " ++ toString validReadings.length ++
        " source(s). Weights: [" ++ weightExplanations ++
        "]. Higher weights given to government data and fresh readings."⟩

/-! Specification-side quantities used in theorem statements. -/

/-- The AQI values of the usable readings of an input collection. -/
def usableAqiValues (readings : List AQIReading) : List ℤ :=
  aqiValuesOf (usableReadings readings)

/-- `spread = max(aqi) - min(aqi)` over the usable AQI values. -/
def spreadOf (readings : List AQIReading) : ℤ :=
  listMax (usableAqiValues readings) - listMin (usableAqiValues readings)

/-- Population mean of a list of AQI values. -/
def popMean (l : List ℤ) : ℚ :=
  (l.map fun v : ℤ => (v : ℚ)).sum / (l.length : ℚ)

/-- Population variance of a list of AQI values; the standard deviation of
the source is its square root. -/
def popVariance (l : List ℤ) : ℚ :=
  (l.map fun v : ℤ => ((v : ℚ) - popMean l) ^ 2).sum / (l.length : ℚ)

/-- The source-reliability factor of the aggregator's weight table. -/
def sourceReliabilityFactor : DataSource → ℚ
  | DataSource.GOVERNMENT => 1.2
  | DataSource.INTERNATIONAL => 1.0
  | DataSource.HISTORICAL => 0.6
  | DataSource.IOT_SENSOR => 0.3

/-- The freshness factor of the aggregator's weight table. `unavailable`
readings are filtered out before weights are computed; the source `switch`
has no case for them (weight left unchanged, i.e. factor 1). -/
def freshnessFactor : FreshnessStatus → ℚ
  | FreshnessStatus.fresh => 1.0
  | FreshnessStatus.aging => 0.7
  | FreshnessStatus.stale => 0.4
  | FreshnessStatus.unavailable => 1

/-- The confidence factor of the aggregator's weight table. -/
def confidenceFactor : ConfidenceLevel → ℚ
  | ConfidenceLevel.high => 1.0
  | ConfidenceLevel.medium => 0.8
  | ConfidenceLevel.low => 0.5
  | ConfidenceLevel.uncalibrated => 0.3

/-- Total weight of the usable readings. -/
def totalWeightOf (readings : List AQIReading) : ℚ :=
  ((usableReadings readings).map readingWeight).sum

/-- The classification step of `agreementFromValid`, as a function of the
max, min and population variance of the usable AQI values. -/
def agreementClassify (mx mn : ℤ) (variance : ℚ) : AgreementAnalysis :=
  let spread := mx - mn
  if spread ≤ 20 ∧ variance ≤ 10 ^ 2 then
    ⟨"high", some spread, highMsg spread⟩
  else if spread ≤ 50 ∧ variance ≤ 25 ^ 2 then
    ⟨"partial", some spread, partialMsg spread⟩
  else
    ⟨"outlier", some spread, outlierMsg spread⟩

/-! Concrete readings used to instantiate the theorems (the worked scenario
of the specification: CPCB 278 fresh/high, OpenAQ 252 aging/high,
historical 285 stale/medium, plus degenerate and IoT readings). -/

/-- A fresh high-confidence government reading with AQI 278. -/
def demoGov : AQIReading :=
  ⟨DataSource.GOVERNMENT, some 278, [], some 0, FreshnessStatus.fresh,
    ConfidenceLevel.high, none⟩

/-- An aging high-confidence international reading with AQI 252. -/
def demoIntl : AQIReading :=
  ⟨DataSource.INTERNATIONAL, some 252, [], some 0, FreshnessStatus.aging,
    ConfidenceLevel.high, none⟩

/-- A stale medium-confidence historical reading with AQI 285. -/
def demoHist : AQIReading :=
  ⟨DataSource.HISTORICAL, some 285, [], some 0, FreshnessStatus.stale,
    ConfidenceLevel.medium, none⟩

/-- A fresh uncalibrated IoT reading with AQI 100. -/
def demoIoT : AQIReading :=
  ⟨DataSource.IOT_SENSOR, some 100, [], some 0, FreshnessStatus.fresh,
    ConfidenceLevel.uncalibrated, none⟩

/-- A stale uncalibrated IoT reading: the lowest-weight usable reading. -/
def demoWorst : AQIReading :=
  ⟨DataSource.IOT_SENSOR, some 400, [], some 0, FreshnessStatus.stale,
    ConfidenceLevel.uncalibrated, none⟩

/-- A reading with `aqi = null` (not usable). -/
def demoNullAqi : AQIReading :=
  ⟨DataSource.GOVERNMENT, none, [], none, FreshnessStatus.fresh,
    ConfidenceLevel.high, none⟩

/-- A reading with `freshness = 'unavailable'` (not usable). -/
def demoUnavailable : AQIReading :=
  ⟨DataSource.INTERNATIONAL, some 150, [], none, FreshnessStatus.unavailable,
    ConfidenceLevel.low, none⟩

/-! Helper lemmas. -/

lemma foldl_add_eq {α : Type} (f : α → ℚ) :
    ∀ (l : List α) (c : ℚ), l.foldl (fun a b => a + f b) c = c + (l.map f).sum
  | [], c => by simp
  | x :: xs, c => by
    rw [List.foldl_cons, foldl_add_eq f xs (c + f x), List.map_cons,
      List.sum_cons, add_assoc]

lemma le_foldl_max (xs : List ℤ) : ∀ a : ℤ, a ≤ xs.foldl max a := by
  induction xs with
  | nil => intro a; exact le_refl a
  | cons x xs ih =>
    intro a
    exact le_trans (le_max_left a x) (ih (max a x))

lemma mem_le_foldl_max (xs : List ℤ) :
    ∀ (a x : ℤ), x ∈ xs → x ≤ xs.foldl max a := by
  induction xs with
  | nil => intro a x hx; cases hx
  | cons y ys ih =>
    intro a x hx
    rcases List.mem_cons.mp hx with h | h
    · subst h
      exact le_trans (le_max_right a x) (le_foldl_max ys (max a x))
    · exact ih (max a y) x h

lemma foldl_max_mem (xs : List ℤ) :
    ∀ a : ℤ, xs.foldl max a = a ∨ xs.foldl max a ∈ xs := by
  induction xs with
  | nil => intro a; exact Or.inl rfl
  | cons y ys ih =>
    intro a
    rcases ih (max a y) with h | h
    · rcases max_choice a y with hm | hm
      · exact Or.inl (by rw [List.foldl_cons, h, hm])
      · exact Or.inr (by rw [List.foldl_cons, h, hm]; exact List.mem_cons_self y ys)
    · exact Or.inr (List.mem_cons_of_mem y h)

lemma le_listMax {l : List ℤ} {x : ℤ} (hx : x ∈ l) : x ≤ listMax l := by
  cases l with
  | nil => cases hx
  | cons y ys =>
    rcases List.mem_cons.mp hx with h | h
    · subst h; exact le_foldl_max ys x
    · exact mem_le_foldl_max ys y x h

lemma listMax_mem {l : List ℤ} (h : l ≠ []) : listMax l ∈ l := by
  cases l with
  | nil => exact absurd rfl h
  | cons y ys =>
    rcases foldl_max_mem ys y with hm | hm
    · rw [listMax, hm]; exact List.mem_cons_self y ys
    · exact List.mem_cons_of_mem y hm

lemma foldl_min_le (xs : List ℤ) : ∀ a : ℤ, xs.foldl min a ≤ a := by
  induction xs with
  | nil => intro a; exact le_refl a
  | cons x xs ih =>
    intro a
    exact le_trans (ih (min a x)) (min_le_left a x)

lemma foldl_min_le_mem (xs : List ℤ) :
    ∀ (a x : ℤ), x ∈ xs → xs.foldl min a ≤ x := by
  induction xs with
  | nil => intro a x hx; cases hx
  | cons y ys ih =>
    intro a x hx
    rcases List.mem_cons.mp hx with h | h
    · subst h
      exact le_trans (foldl_min_le ys (min a x)) (min_le_right a x)
    · exact ih (min a y) x h

lemma foldl_min_mem (xs : List ℤ) :
    ∀ a : ℤ, xs.foldl min a = a ∨ xs.foldl min a ∈ xs := by
  induction xs with
  | nil => intro a; exact Or.inl rfl
  | cons y ys ih =>
    intro a
    rcases ih (min a y) with h | h
    · rcases min_choice a y with hm | hm
      · exact Or.inl (by rw [List.foldl_cons, h, hm])
      · exact Or.inr (by rw [List.foldl_cons, h, hm]; exact List.mem_cons_self y ys)
    · exact Or.inr (List.mem_cons_of_mem y h)

lemma listMin_le {l : List ℤ} {x : ℤ} (hx : x ∈ l) : listMin l ≤ x := by
  cases l with
  | nil => cases hx
  | cons y ys =>
    rcases List.mem_cons.mp hx with h | h
    · subst h; exact foldl_min_le ys x
    · exact foldl_min_le_mem ys y x h

lemma listMin_mem {l : List ℤ} (h : l ≠ []) : listMin l ∈ l := by
  cases l with
  | nil => exact absurd rfl h
  | cons y ys =>
    rcases foldl_min_mem ys y with hm | hm
    · rw [listMin, hm]; exact List.mem_cons_self y ys
    · exact List.mem_cons_of_mem y hm

lemma listMax_perm {l l' : List ℤ} (hp : l.Perm l') (hl : l ≠ []) :
    listMax l = listMax l' := by
  have hl' : l' ≠ [] := fun h => hl (List.Perm.eq_nil (h ▸ hp))
  exact le_antisymm
    (le_listMax (hp.mem_iff.mp (listMax_mem hl)))
    (le_listMax (hp.mem_iff.mpr (listMax_mem hl')))

lemma listMin_perm {l l' : List ℤ} (hp : l.Perm l') (hl : l ≠ []) :
    listMin l = listMin l' := by
  have hl' : l' ≠ [] := fun h => hl (List.Perm.eq_nil (h ▸ hp))
  exact le_antisymm
    (listMin_le (hp.mem_iff.mpr (listMin_mem hl')))
    (listMin_le (hp.mem_iff.mp (listMin_mem hl)))

lemma popVariance_perm {l l' : List ℤ} (hp : l.Perm l') :
    popVariance l = popVariance l' := by
  have hm : popMean l = popMean l' := by
    unfold popMean
    rw [(hp.map fun v : ℤ => (v : ℚ)).sum_eq, hp.length_eq]
  unfold popVariance
  rw [hm, (hp.map fun v : ℤ => ((v : ℚ) - popMean l') ^ 2).sum_eq, hp.length_eq]

lemma readingWeight_pos (r : AQIReading) : 0 < readingWeight r := by
  obtain ⟨s, a, p, t, f, c, n⟩ := r
  cases s <;> cases f <;> cases c <;> norm_num [readingWeight]

lemma readingWeight_ge (r : AQIReading) : (0.036 : ℚ) ≤ readingWeight r := by
  obtain ⟨s, a, p, t, f, c, n⟩ := r
  cases s <;> cases f <;> cases c <;> norm_num [readingWeight]

lemma jsRound_le_int {q : ℚ} {z : ℤ} (h : q ≤ (z : ℚ)) : jsRound q ≤ z := by
  unfold jsRound
  have h1 : q + 1 / 2 ≤ (1 : ℚ) / 2 + (z : ℚ) := by linarith
  calc ⌊q + 1 / 2⌋ ≤ ⌊(1 : ℚ) / 2 + (z : ℚ)⌋ := Int.floor_mono h1
    _ = ⌊(1 : ℚ) / 2⌋ + z := Int.floor_add_int _ z
    _ = z := by norm_num

lemma int_le_jsRound {z : ℤ} {q : ℚ} (h : (z : ℚ) ≤ q) : z ≤ jsRound q := by
  unfold jsRound
  have h1 : (1 : ℚ) / 2 + (z : ℚ) ≤ q + 1 / 2 := by linarith
  calc z = ⌊(1 : ℚ) / 2⌋ + z := by norm_num
    _ = ⌊(1 : ℚ) / 2 + (z : ℚ)⌋ := (Int.floor_add_int _ z).symm
    _ ≤ ⌊q + 1 / 2⌋ := Int.floor_mono h1

lemma agreementFromValid_eq (v : List AQIReading) :
    agreementFromValid v =
      agreementClassify (listMax (aqiValuesOf v)) (listMin (aqiValuesOf v))
        (popVariance (aqiValuesOf v)) := by
  simp only [agreementFromValid, agreementClassify, popVariance, popMean,
    foldl_add_eq, zero_add]

lemma analyzeAgreement_of_two (readings : List AQIReading)
    (h2 : 2 ≤ (usableReadings readings).length) :
    analyzeAgreement readings = agreementFromValid (usableReadings readings) := by
  simp only [analyzeAgreement]
  rw [if_neg (by omega), if_neg (by omega)]

lemma calculateDerivedAQI_empty_eval (readings : List AQIReading)
    (h : usableReadings readings = []) :
    calculateDerivedAQI readings = ⟨none, 0, [], "No valid data available."⟩ := by
  simp only [calculateDerivedAQI]
  rw [if_pos (by simp [h])]

lemma calculateDerivedAQI_value_eq (readings : List AQIReading)
    (h : usableReadings readings ≠ []) :
    (calculateDerivedAQI readings).value =
      some (jsRound
        (((usableReadings readings).map
            fun r => (r.aqi.getD 0 : ℚ) * readingWeight r).sum /
          totalWeightOf readings)) := by
  have hlen : ¬ (usableReadings readings).length = 0 := by
    simpa [List.length_eq_zero] using h
  simp only [calculateDerivedAQI, totalWeightOf]
  rw [if_neg hlen]
  simp only [foldl_add_eq, zero_add]

lemma calculateDerivedAQI_conf_eq (readings : List AQIReading)
    (h : usableReadings readings ≠ []) :
    (calculateDerivedAQI readings).confidence =
      min 100 (jsRound (totalWeightOf readings /
        (((usableReadings readings).length : ℚ) * 1.2 * 1.0 * 1.0) * 100)) := by
  have hlen : ¬ (usableReadings readings).length = 0 := by
    simpa [List.length_eq_zero] using h
  simp only [calculateDerivedAQI, totalWeightOf]
  rw [if_neg hlen]
  simp only [foldl_add_eq, zero_add]

lemma totalWeightOf_pos (readings : List AQIReading)
    (h : usableReadings readings ≠ []) : 0 < totalWeightOf readings := by
  refine List.sum_pos _ (fun x hx => ?_) (by simpa using h)
  obtain ⟨r, _, rfl⟩ := List.mem_map.mp hx
  exact readingWeight_pos r

lemma sum_map_const_q {α : Type} (l : List α) (c : ℚ) :
    (l.map fun _ => c).sum = (l.length : ℚ) * c := by
  induction l with
  | nil => simp
  | cons x xs ih =>
    simp only [List.map_cons, List.sum_cons, List.length_cons, ih]
    push_cast
    ring

lemma agreementFromValid_perm (v v' : List AQIReading) (hp : v.Perm v')
    (hv : v ≠ []) : agreementFromValid v = agreementFromValid v' := by
  have hA : (aqiValuesOf v).Perm (aqiValuesOf v') := hp.map _
  have hAne : aqiValuesOf v ≠ [] := by simpa [aqiValuesOf] using hv
  rw [agreementFromValid_eq, agreementFromValid_eq, listMax_perm hA hAne,
    listMin_perm hA hAne, popVariance_perm hA]

lemma sqrt_ratCast_le {q c : ℚ} (hc : 0 ≤ c) :
    Real.sqrt (q : ℝ) ≤ (c : ℝ) ↔ q ≤ c ^ 2 := by
  rw [Real.sqrt_le_left (by exact_mod_cast hc)]
  exact_mod_cast Iff.rfl

/-! Theorems for the claims. -/

/-- C4: `calculateFreshness` is total; an absent timestamp yields
`unavailable`, and with `h = (now − timestamp)` in hours it yields `fresh`
for `h < 1`, `aging` for `1 ≤ h < 6` and `stale` for `h ≥ 6`; the
boundaries `h = 1` and `h = 6` fall in `aging` resp. `stale`. -/
theorem calculateFreshness_spec :
    (∀ now : ℚ, calculateFreshness now none = FreshnessStatus.unavailable) ∧
    (∀ now t : ℚ, (now - t) / (1000 * 60 * 60) < 1 →
      calculateFreshness now (some t) = FreshnessStatus.fresh) ∧
    (∀ now t : ℚ, 1 ≤ (now - t) / (1000 * 60 * 60) →
      (now - t) / (1000 * 60 * 60) < 6 →
      calculateFreshness now (some t) = FreshnessStatus.aging) ∧
    (∀ now t : ℚ, 6 ≤ (now - t) / (1000 * 60 * 60) →
      calculateFreshness now (some t) = FreshnessStatus.stale) := by
  refine ⟨fun now => rfl, fun now t h => ?_, fun now t h1 h6 => ?_,
    fun now t h6 => ?_⟩
  · simp only [calculateFreshness]
    rw [if_pos h]
  · simp only [calculateFreshness]
    rw [if_neg (by linarith), if_pos h6]
  · simp only [calculateFreshness]
    rw [if_neg (by linarith), if_neg (by linarith)]

/-- Witness for C4: the classifier evaluated at an absent timestamp and at
ages of exactly 0, 1 and 6 hours (boundaries land in `aging`/`stale`). -/
theorem calculateFreshness_spec_witness :
    calculateFreshness 0 none = FreshnessStatus.unavailable ∧
    calculateFreshness 0 (some 0) = FreshnessStatus.fresh ∧
    calculateFreshness 3600000 (some 0) = FreshnessStatus.aging ∧
    calculateFreshness 21600000 (some 0) = FreshnessStatus.stale :=
  ⟨calculateFreshness_spec.1 0,
   calculateFreshness_spec.2.1 0 0 (by norm_num),
   calculateFreshness_spec.2.2.1 3600000 0 (by norm_num) (by norm_num),
   calculateFreshness_spec.2.2.2 21600000 0 (by norm_num)⟩

/-- C9: `normalizeAQI` multiplies INTERNATIONAL values by 0.95 and rounds
to the nearest integer, and is the identity on GOVERNMENT, HISTORICAL and
IOT_SENSOR values; it is total with no failure modes. -/
theorem normalizeAQI_spec (v : ℚ) :
    normalizeAQI v DataSource.INTERNATIONAL = (jsRound (v * 0.95) : ℚ) ∧
    normalizeAQI v DataSource.GOVERNMENT = v ∧
    normalizeAQI v DataSource.HISTORICAL = v ∧
    normalizeAQI v DataSource.IOT_SENSOR = v :=
  ⟨rfl, rfl, rfl, rfl⟩

/-- C6: with fewer than two usable readings, `analyzeAgreement` returns
level `insufficient` with `spread = null`; being a total function, it never
throws. -/
theorem analyzeAgreement_insufficient (readings : List AQIReading)
    (h : (usableReadings readings).length < 2) :
    (analyzeAgreement readings).level = "insufficient" ∧
    (analyzeAgreement readings).spread = none := by
  simp only [analyzeAgreement]
  have h01 : (usableReadings readings).length = 0 ∨
      (usableReadings readings).length = 1 := by omega
  rcases h01 with h0 | h1
  · rw [if_pos h0]
    exact ⟨rfl, rfl⟩
  · rw [if_neg (by omega), if_pos h1]
    exact ⟨rfl, rfl⟩

/-- Witness for C6: a single usable reading yields `insufficient` with a
null spread. -/
theorem analyzeAgreement_insufficient_witness :
    (analyzeAgreement [demoGov, demoNullAqi]).level = "insufficient" ∧
    (analyzeAgreement [demoGov, demoNullAqi]).spread = none :=
  analyzeAgreement_insufficient [demoGov, demoNullAqi] (by decide)

/-- C7: with zero usable readings (all `aqi` null or freshness
`unavailable`), `calculateDerivedAQI` returns a null value, confidence 0
and an empty source list; being a total function, it never throws. -/
theorem calculateDerivedAQI_no_usable (readings : List AQIReading)
    (h : usableReadings readings = []) :
    (calculateDerivedAQI readings).value = none ∧
    (calculateDerivedAQI readings).confidence = 0 ∧
    (calculateDerivedAQI readings).sources = [] := by
  rw [calculateDerivedAQI_empty_eval readings h]
  exact ⟨rfl, rfl, rfl⟩

/-- Witness for C7: one null-AQI reading and one `unavailable` reading
yield the degenerate result. -/
theorem calculateDerivedAQI_no_usable_witness :
    (calculateDerivedAQI [demoNullAqi, demoUnavailable]).value = none ∧
    (calculateDerivedAQI [demoNullAqi, demoUnavailable]).confidence = 0 ∧
    (calculateDerivedAQI [demoNullAqi, demoUnavailable]).sources = [] :=
  calculateDerivedAQI_no_usable [demoNullAqi, demoUnavailable] (by decide)

/-- C2: the weight of a usable reading is the strict product of its
source-reliability factor (GOVERNMENT 1.2, INTERNATIONAL 1.0, HISTORICAL
0.6, IOT_SENSOR 0.3), freshness factor (fresh 1.0, aging 0.7, stale 0.4)
and confidence factor (high 1.0, medium 0.8, low 0.5, uncalibrated 0.3);
a fresh uncalibrated IOT_SENSOR reading gets 0.3 × 1.0 × 0.3 = 0.09. -/
theorem readingWeight_strict_product :
    (∀ r : AQIReading, r.freshness ≠ FreshnessStatus.unavailable →
      readingWeight r =
        sourceReliabilityFactor r.source * freshnessFactor r.freshness *
          confidenceFactor r.confidence) ∧
    (∀ r : AQIReading, r.source = DataSource.IOT_SENSOR →
      r.freshness = FreshnessStatus.fresh →
      r.confidence = ConfidenceLevel.uncalibrated →
      readingWeight r = 0.3 * 1.0 * 0.3 ∧ readingWeight r = 0.09) := by
  constructor
  · intro r _
    obtain ⟨s, a, p, t, f, c, n⟩ := r
    cases s <;> cases f <;> cases c <;>
      norm_num [readingWeight, sourceReliabilityFactor, freshnessFactor,
        confidenceFactor]
  · intro r hs hf hc
    obtain ⟨s, a, p, t, f, c, n⟩ := r
    cases hs
    cases hf
    cases hc
    norm_num [readingWeight]

/-- Witness for C2: the fresh uncalibrated IoT reading has weight 0.09,
the product of its three factors. -/
theorem readingWeight_strict_product_witness :
    readingWeight demoIoT =
      sourceReliabilityFactor demoIoT.source *
        freshnessFactor demoIoT.freshness *
        confidenceFactor demoIoT.confidence ∧
    readingWeight demoIoT = 0.09 :=
  ⟨readingWeight_strict_product.1 demoIoT (by decide),
   (readingWeight_strict_product.2 demoIoT rfl rfl rfl).2⟩

/-- C1: with at least two usable readings, `analyzeAgreement` returns
`spread = max − min` of the usable AQI values, and classifies with the
population standard deviation: `high` iff `spread ≤ 20` and `stdDev ≤ 10`,
`partial` iff not `high` but `spread ≤ 50` and `stdDev ≤ 25`, `outlier`
otherwise; all comparisons are inclusive. -/
theorem analyzeAgreement_classification (readings : List AQIReading)
    (h2 : 2 ≤ (usableReadings readings).length) :
    (analyzeAgreement readings).spread = some (spreadOf readings) ∧
    ((analyzeAgreement readings).level = "high" ↔
      spreadOf readings ≤ 20 ∧
        Real.sqrt ((popVariance (usableAqiValues readings) : ℚ) : ℝ) ≤ 10) ∧
    ((analyzeAgreement readings).level = "partial" ↔
      ¬(spreadOf readings ≤ 20 ∧
          Real.sqrt ((popVariance (usableAqiValues readings) : ℚ) : ℝ) ≤ 10) ∧
        (spreadOf readings ≤ 50 ∧
          Real.sqrt ((popVariance (usableAqiValues readings) : ℚ) : ℝ) ≤ 25)) ∧
    ((analyzeAgreement readings).level = "outlier" ↔
      ¬(spreadOf readings ≤ 20 ∧
          Real.sqrt ((popVariance (usableAqiValues readings) : ℚ) : ℝ) ≤ 10) ∧
        ¬(spreadOf readings ≤ 50 ∧
          Real.sqrt ((popVariance (usableAqiValues readings) : ℚ) : ℝ) ≤ 25)) := by
  have e10 : Real.sqrt ((popVariance (usableAqiValues readings) : ℚ) : ℝ) ≤ 10 ↔
      popVariance (usableAqiValues readings) ≤ 10 ^ 2 := by
    rw [show (10 : ℝ) = ((10 : ℚ) : ℝ) by norm_cast]
    exact sqrt_ratCast_le (by norm_num)
  have e25 : Real.sqrt ((popVariance (usableAqiValues readings) : ℚ) : ℝ) ≤ 25 ↔
      popVariance (usableAqiValues readings) ≤ 25 ^ 2 := by
    rw [show (25 : ℝ) = ((25 : ℚ) : ℝ) by norm_cast]
    exact sqrt_ratCast_le (by norm_num)
  rw [analyzeAgreement_of_two readings h2, agreementFromValid_eq, e10, e25]
  simp only [spreadOf, usableAqiValues, agreementClassify]
  by_cases hA : listMax (aqiValuesOf (usableReadings readings)) -
      listMin (aqiValuesOf (usableReadings readings)) ≤ 20 ∧
      popVariance (aqiValuesOf (usableReadings readings)) ≤ 10 ^ 2
  · rw [if_pos hA]
    exact ⟨rfl, iff_of_true rfl hA,
      iff_of_false
        (fun hcon => (by decide : ("high" : String) ≠ "partial") hcon)
        fun hcon => hcon.1 hA,
      iff_of_false
        (fun hcon => (by decide : ("high" : String) ≠ "outlier") hcon)
        fun hcon => hcon.1 hA⟩
  · rw [if_neg hA]
    by_cases hB : listMax (aqiValuesOf (usableReadings readings)) -
        listMin (aqiValuesOf (usableReadings readings)) ≤ 50 ∧
        popVariance (aqiValuesOf (usableReadings readings)) ≤ 25 ^ 2
    · rw [if_pos hB]
      exact ⟨rfl,
        iff_of_false
          (fun hcon => (by decide : ("partial" : String) ≠ "high") hcon)
          fun hcon => hA hcon,
        iff_of_true rfl ⟨hA, hB⟩,
        iff_of_false
          (fun hcon => (by decide : ("partial" : String) ≠ "outlier") hcon)
          fun hcon => hcon.2 hB⟩
    · rw [if_neg hB]
      exact ⟨rfl,
        iff_of_false
          (fun hcon => (by decide : ("outlier" : String) ≠ "high") hcon)
          fun hcon => hA hcon,
        iff_of_false
          (fun hcon => (by decide : ("outlier" : String) ≠ "partial") hcon)
          fun hcon => hB hcon.2,
        iff_of_true rfl ⟨hA, hB⟩⟩

/-- Witness for C1: the specification's worked scenario (278, 252, 285)
has spread 33 and is classified `partial`. -/
theorem analyzeAgreement_classification_witness :
    (analyzeAgreement [demoGov, demoIntl, demoHist]).spread =
      some (spreadOf [demoGov, demoIntl, demoHist]) ∧
    ((analyzeAgreement [demoGov, demoIntl, demoHist]).level = "partial" ↔
      ¬(spreadOf [demoGov, demoIntl, demoHist] ≤ 20 ∧
          Real.sqrt ((popVariance
            (usableAqiValues [demoGov, demoIntl, demoHist]) : ℚ) : ℝ) ≤ 10) ∧
        (spreadOf [demoGov, demoIntl, demoHist] ≤ 50 ∧
          Real.sqrt ((popVariance
            (usableAqiValues [demoGov, demoIntl, demoHist]) : ℚ) : ℝ) ≤ 25)) :=
  ⟨(analyzeAgreement_classification [demoGov, demoIntl, demoHist]
      (by decide)).1,
   (analyzeAgreement_classification [demoGov, demoIntl, demoHist]
      (by decide)).2.2.1⟩

/-- C8: `analyzeAgreement` is invariant under permutation of its input
list: permuted inputs give the identical `AgreementAnalysis` (level,
spread and explanation). -/
theorem analyzeAgreement_perm_invariant (l l' : List AQIReading)
    (h : l.Perm l') : analyzeAgreement l = analyzeAgreement l' := by
  have hp : (usableReadings l).Perm (usableReadings l') := h.filter _
  have hlen : (usableReadings l).length = (usableReadings l').length :=
    hp.length_eq
  simp only [analyzeAgreement]
  rw [← hlen]
  by_cases h0 : (usableReadings l).length = 0
  · rw [if_pos h0, if_pos h0]
  · rw [if_neg h0, if_neg h0]
    by_cases h1 : (usableReadings l).length = 1
    · rw [if_pos h1, if_pos h1]
      obtain ⟨r, hr⟩ := List.length_eq_one.mp h1
      have hr' : usableReadings l' = [r] :=
        (List.Perm.singleton_eq (hr ▸ hp)).symm
      rw [hr, hr']
    · rw [if_neg h1, if_neg h1]
      refine agreementFromValid_perm _ _ hp fun hnil => ?_
      rw [hnil] at h0
      exact h0 rfl

/-- Witness for C8: swapping the two readings of a concrete input leaves
the analysis unchanged. -/
theorem analyzeAgreement_perm_invariant_witness :
    analyzeAgreement [demoIntl, demoGov] = analyzeAgreement [demoGov, demoIntl] :=
  analyzeAgreement_perm_invariant [demoIntl, demoGov] [demoGov, demoIntl]
    (List.Perm.swap demoGov demoIntl [])

/-- C3: with at least one usable reading, the aggregator's confidence is
`min(100, round(100 × Σweightᵢ / (N × 1.2)))` with `N` the usable count,
and lies in [0, 100]; with zero usable readings it is exactly 0. -/
theorem calculateDerivedAQI_confidence_spec (readings : List AQIReading) :
    (usableReadings readings ≠ [] →
      (calculateDerivedAQI readings).confidence =
        min 100 (jsRound (100 * totalWeightOf readings /
          (((usableReadings readings).length : ℚ) * 1.2))) ∧
      0 ≤ (calculateDerivedAQI readings).confidence ∧
      (calculateDerivedAQI readings).confidence ≤ 100) ∧
    (usableReadings readings = [] →
      (calculateDerivedAQI readings).confidence = 0) := by
  constructor
  · intro h
    have heq := calculateDerivedAQI_conf_eq readings h
    have harg : totalWeightOf readings /
        (((usableReadings readings).length : ℚ) * 1.2 * 1.0 * 1.0) * 100 =
        100 * totalWeightOf readings /
          (((usableReadings readings).length : ℚ) * 1.2) := by ring
    have hW := totalWeightOf_pos readings h
    have hn : (0 : ℚ) < ((usableReadings readings).length : ℚ) := by
      exact_mod_cast List.length_pos.mpr h
    have hden : (0 : ℚ) <
        ((usableReadings readings).length : ℚ) * 1.2 * 1.0 * 1.0 := by
      nlinarith
    refine ⟨by rw [heq, harg], ?_, ?_⟩
    · rw [heq]
      refine le_min (by norm_num) (int_le_jsRound ?_)
      push_cast
      exact mul_nonneg (div_nonneg hW.le hden.le) (by norm_num)
    · rw [heq]
      exact min_le_left _ _
  · intro h
    rw [calculateDerivedAQI_empty_eval readings h]

/-- Witness for C3: the worked scenario has confidence in [0, 100]; an
input whose sole reading is `unavailable` has confidence 0. -/
theorem calculateDerivedAQI_confidence_spec_witness :
    (0 ≤ (calculateDerivedAQI [demoGov, demoIntl, demoHist]).confidence ∧
      (calculateDerivedAQI [demoGov, demoIntl, demoHist]).confidence ≤ 100) ∧
    (calculateDerivedAQI [demoUnavailable]).confidence = 0 :=
  ⟨⟨((calculateDerivedAQI_confidence_spec [demoGov, demoIntl, demoHist]).1
        (by decide)).2.1,
    ((calculateDerivedAQI_confidence_spec [demoGov, demoIntl, demoHist]).1
        (by decide)).2.2⟩,
   (calculateDerivedAQI_confidence_spec [demoUnavailable]).2 (by decide)⟩

/-- C10: with at least one usable reading, the aggregator's confidence is
at least 3 (the smallest weight is 0.3 × 0.4 × 0.3 = 0.036, so the
percentage before rounding is at least 3); hence confidence 0 happens
exactly for an empty usable set. -/
theorem calculateDerivedAQI_confidence_min3 (readings : List AQIReading) :
    (usableReadings readings ≠ [] →
      3 ≤ (calculateDerivedAQI readings).confidence) ∧
    ((calculateDerivedAQI readings).confidence = 0 ↔
      usableReadings readings = []) := by
  have main : usableReadings readings ≠ [] →
      3 ≤ (calculateDerivedAQI readings).confidence := by
    intro h
    rw [calculateDerivedAQI_conf_eq readings h]
    have hn : (0 : ℚ) < ((usableReadings readings).length : ℚ) := by
      exact_mod_cast List.length_pos.mpr h
    have hconst : ((usableReadings readings).map fun _ => (0.036 : ℚ)).sum =
        ((usableReadings readings).length : ℚ) * 0.036 :=
      sum_map_const_q _ _
    have hle : ((usableReadings readings).map fun _ => (0.036 : ℚ)).sum ≤
        totalWeightOf readings :=
      List.sum_le_sum fun r _ => readingWeight_ge r
    have hW : ((usableReadings readings).length : ℚ) * 0.036 ≤
        totalWeightOf readings := hconst ▸ hle
    refine le_min (by norm_num) (int_le_jsRound ?_)
    have hden : (0 : ℚ) <
        ((usableReadings readings).length : ℚ) * 1.2 * 1.0 * 1.0 := by
      nlinarith
    rw [div_mul_eq_mul_div, le_div_iff₀ hden]
    push_cast
    linarith
  refine ⟨main, fun h0 => ?_, fun h => by
    rw [calculateDerivedAQI_empty_eval readings h]⟩
  by_contra hne
  have h3 := main hne
  omega

/-- Witness for C10: a single stale uncalibrated IoT reading, the
lowest-weight usable input, still has confidence at least 3. -/
theorem calculateDerivedAQI_confidence_min3_witness :
    3 ≤ (calculateDerivedAQI [demoWorst]).confidence :=
  (calculateDerivedAQI_confidence_min3 [demoWorst]).1 (by decide)

/-- C5: with a non-empty usable set, the derived value (the rounded
weighted average) lies within [min(usable aqi), max(usable aqi)]. -/
theorem calculateDerivedAQI_value_in_hull (readings : List AQIReading)
    (h : usableReadings readings ≠ []) :
    ∃ v : ℤ, (calculateDerivedAQI readings).value = some v ∧
      listMin (usableAqiValues readings) ≤ v ∧
      v ≤ listMax (usableAqiValues readings) := by
  have hW := totalWeightOf_pos readings h
  refine ⟨jsRound ((((usableReadings readings).map
      fun r => (r.aqi.getD 0 : ℚ) * readingWeight r).sum) /
        totalWeightOf readings),
    calculateDerivedAQI_value_eq readings h, ?_, ?_⟩
  · apply int_le_jsRound
    rw [le_div_iff₀ hW]
    have hlb : ∀ r ∈ usableReadings readings,
        (listMin (usableAqiValues readings) : ℚ) * readingWeight r ≤
          (r.aqi.getD 0 : ℚ) * readingWeight r := by
      intro r hr
      have hmem : r.aqi.getD 0 ∈ usableAqiValues readings := by
        simp only [usableAqiValues, aqiValuesOf]
        exact List.mem_map_of_mem _ hr
      have hle : listMin (usableAqiValues readings) ≤ r.aqi.getD 0 :=
        listMin_le hmem
      exact mul_le_mul_of_nonneg_right (by exact_mod_cast hle)
        (readingWeight_pos r).le
    calc (listMin (usableAqiValues readings) : ℚ) * totalWeightOf readings
        = ((usableReadings readings).map
            fun r => (listMin (usableAqiValues readings) : ℚ) *
              readingWeight r).sum :=
          (List.sum_map_mul_left _ _ _).symm
      _ ≤ _ := List.sum_le_sum hlb
  · apply jsRound_le_int
    rw [div_le_iff₀ hW]
    have hub : ∀ r ∈ usableReadings readings,
        (r.aqi.getD 0 : ℚ) * readingWeight r ≤
          (listMax (usableAqiValues readings) : ℚ) * readingWeight r := by
      intro r hr
      have hmem : r.aqi.getD 0 ∈ usableAqiValues readings := by
        simp only [usableAqiValues, aqiValuesOf]
        exact List.mem_map_of_mem _ hr
      have hle : r.aqi.getD 0 ≤ listMax (usableAqiValues readings) :=
        le_listMax hmem
      exact mul_le_mul_of_nonneg_right (by exact_mod_cast hle)
        (readingWeight_pos r).le
    calc ((usableReadings readings).map
          fun r => (r.aqi.getD 0 : ℚ) * readingWeight r).sum
        ≤ ((usableReadings readings).map
            fun r => (listMax (usableAqiValues readings) : ℚ) *
              readingWeight r).sum := List.sum_le_sum hub
      _ = (listMax (usableAqiValues readings) : ℚ) * totalWeightOf readings :=
          List.sum_map_mul_left _ _ _

/-- Witness for C5: the derived value of the worked scenario lies between
the minimum and maximum usable AQI values. -/
theorem calculateDerivedAQI_value_in_hull_witness :
    ∃ v : ℤ, (calculateDerivedAQI [demoGov, demoIntl, demoHist]).value =
        some v ∧
      listMin (usableAqiValues [demoGov, demoIntl, demoHist]) ≤ v ∧
      v ≤ listMax (usableAqiValues [demoGov, demoIntl, demoHist]) :=
  calculateDerivedAQI_value_in_hull [demoGov, demoIntl, demoHist] (by decide)

end AirInsights
